import Mathlib

/-!
Verification of the heat-pump telemetry analytics engine (`data_query.py`,
class `HeatPumpDataQuery`).  Samples are modelled as pairs `(time, value)`
with time in seconds and value in the metric's raw unit; the floating-point
arithmetic of the source is modelled exactly over `ℚ`.
-/

/-- A telemetry sample: `(timestamp in seconds, value)`.  Mirrors one row of
the dataframes handled by `data_query.py` (`_time`, `_value`). -/
abbrev Sample := ℚ × ℚ

/-- Banker's rounding of a rational to an integer, the rounding mode of
Python's built-in `round`. -/
def roundHalfEven (x : ℚ) : ℤ :=
  let f := ⌊x⌋
  let r := x - f
  if r < 1/2 then f
  else if 1/2 < r then f + 1
  else if f % 2 = 0 then f else f + 1

/-- Python's `round(x, d)`: round to `d` decimal places, ties to even. -/
def pyRound (x : ℚ) (d : ℕ) : ℚ :=
  (roundHalfEven (x * 10 ^ d) : ℚ) / 10 ^ d

/-- Stable insertion of a sample into a list sorted ascending by time;
building block of `sortSamplesAsc` (the model of `df.sort_values('_time')`). -/
def insertSampleAsc (e : Sample) : List Sample → List Sample
  | [] => [e]
  | x :: xs => if e.1 ≤ x.1 then e :: x :: xs else x :: insertSampleAsc e xs

/-- Stable ascending sort by timestamp, modelling `df.sort_values('_time')`
(pandas' sort is stable). -/
def sortSamplesAsc : List Sample → List Sample
  | [] => []
  | x :: xs => insertSampleAsc x (sortSamplesAsc xs)

/-! ## Aggregation window selectors (`_get_aggregation_window`,
`_get_cop_aggregation_window`) -/

/-- A parsed `time_range` argument: the source inspects the suffix of the
string (`'h'` or `'d'`) and converts the prefix with `int`; any other suffix
falls through to the final `else` branch. -/
inductive TimeRange
  | hours (n : ℕ)
  | days (n : ℕ)
  | other
deriving DecidableEq

/-- `HeatPumpDataQuery._get_aggregation_window`: batch aggregation window
for a requested range. -/
def getAggregationWindow : TimeRange → String
  | .hours h =>
    if h ≤ 1 then "1m"
    else if h ≤ 6 then "3m"
    else if h ≤ 24 then "5m"
    else "15m"
  | .days d =>
    if d ≤ 1 then "5m"
    else if d ≤ 7 then "30m"
    else if d ≤ 30 then "2h"
    else "6h"
  | .other => "5m"

/-- `HeatPumpDataQuery._get_cop_aggregation_window`: finer aggregation
window used for COP visualisation. -/
def getCopAggregationWindow : TimeRange → String
  | .hours h =>
    if h ≤ 1 then "1m"
    else if h ≤ 6 then "2m"
    else if h ≤ 24 then "5m"
    else "10m"
  | .days d =>
    if d ≤ 1 then "5m"
    else if d ≤ 7 then "10m"
    else if d ≤ 30 then "10m"
    else "1h"
  | .other => "5m"

/-! ## Raw-value scaling (`query_metrics`, `get_latest_values`) -/

/-- The `no_division_fields` list of `query_metrics`: metrics whose raw
values are already in display units. -/
def noDivisionFields : List String :=
  ["compressor_status", "brine_pump_status", "radiator_pump_status",
   "switch_valve_status", "alarm_status", "alarm_code",
   "operating_mode", "external_control",
   "power_consumption"]

/-- The `no_division_fields` list of `get_latest_values` (repeated verbatim
in the source). -/
def noDivisionFieldsLatest : List String :=
  ["compressor_status", "brine_pump_status", "radiator_pump_status",
   "switch_valve_status", "alarm_status", "alarm_code",
   "operating_mode", "external_control",
   "power_consumption"]

/-- The per-row scaling loop of `query_metrics`: each row `(name, value)`
keeps its value when the name is in `no_division_fields` and is divided by
10 otherwise. -/
def queryMetricsScale (rows : List (String × ℚ)) : List (String × ℚ) :=
  rows.map fun r => if r.1 ∈ noDivisionFields then r else (r.1, r.2 / 10)

/-- The per-row scaling of `get_latest_values`, applied when building the
`latest` mapping. -/
def getLatestValuesScale (rows : List (String × ℚ)) : List (String × ℚ) :=
  rows.map fun r => if r.1 ∈ noDivisionFieldsLatest then r else (r.1, r.2 / 10)

/-! ## Energy integration (`calculate_energy_costs`) -/

/-- Inner loop of the energy integration: given the previous sample's
timestamp, each row contributes `value * ((time - prev_time)/3600) / 1000`
kWh — the row's `time_diff_hours` is the backward difference produced by
`df['_time'].diff()`. -/
def energyGo : Sample → List Sample → ℚ
  | _, [] => 0
  | prev, cur :: rest => cur.2 * ((cur.1 - prev.1) / 3600) / 1000 + energyGo cur rest

/-- `df['energy_kwh'].sum()` of `calculate_energy_costs`: the first row's
`diff()` is NaN, `fillna(0)` makes its contribution zero; every later row
contributes `value * Δt_hours / 1000` with `Δt` the elapsed time since the
previous row. -/
def energyKwhTotal : List Sample → ℚ
  | [] => 0
  | x :: rest => energyGo x rest

/-- Modelled from the spec's words for the energy formula (the claim's
literal reading): a left-Riemann sum `Σ power[i] * Δt[i] / 1000` with
`Δt[i]` the elapsed hours between sample `i` and sample `i+1`, so each
power value persists until the next sample and the last sample contributes
zero.  Kept distinct from `energyKwhTotal` (the code) to compare the two. -/
def energyKwhLeftRiemann (xs : List Sample) : ℚ :=
  ((xs.zip xs.tail).map fun p => p.1.2 * ((p.2.1 - p.1.1) / 3600) / 1000).sum

/-- Maximum of a list of rationals (pandas `max()` over a nonempty
column; 0 for the empty list, which the callers guard against). -/
def listMax : List ℚ → ℚ
  | [] => 0
  | x :: xs => xs.foldl max x

/-- Minimum of a list of rationals (pandas `min()`). -/
def listMin : List ℚ → ℚ
  | [] => 0
  | x :: xs => xs.foldl min x

/-- Result record of `calculate_energy_costs`. -/
structure EnergyCostResult where
  total_kwh : ℚ
  total_cost : ℚ
  avg_power : ℚ
  peak_power : ℚ
deriving DecidableEq

/-- The all-zero `EnergyCostResult` returned on empty data and on caught
exceptions. -/
def zeroEnergyCostResult : EnergyCostResult := ⟨0, 0, 0, 0⟩

/-- `calculate_energy_costs`: the upstream query either fails
(`query_metrics` catches the exception and hands back an empty frame, and
the function's own `except` path returns the same zero record) or yields the
power rows; an empty frame yields the zero record; otherwise the frame is
sorted by time, energy is integrated over real elapsed time, and the fields
are rounded as in the source (`round(·, 2)` / `round(·, 0)`). -/
def calculateEnergyCosts (q : Except Unit (List Sample)) (price_per_kwh : ℚ) :
    EnergyCostResult :=
  match q with
  | .error _ => zeroEnergyCostResult
  | .ok rows =>
    if rows = [] then zeroEnergyCostResult
    else
      let sorted := sortSamplesAsc rows
      let total_kwh := energyKwhTotal sorted
      let avg_power := (rows.map (·.2)).sum / rows.length
      let peak_power := listMax (rows.map (·.2))
      ⟨pyRound total_kwh 2, pyRound (total_kwh * price_per_kwh) 2,
       pyRound avg_power 0, pyRound peak_power 0⟩

/-! ## Hot-water cycle detection (`analyze_hot_water_cycles`,
`analyze_hot_water_cycles_from_df`) -/

/-- Cycle-start detection: `valve_df['prev_value'] = shift(1)` and
`cycles_start = valve_df[(valve_df['_value'] == 1) & (valve_df['prev_value'] == 0)]`.
Each consecutive pair whose previous value is 0 and current value is 1
contributes the current row's timestamp; the first row (NaN predecessor)
never matches. -/
def cycleStarts (xs : List Sample) : List ℚ :=
  (xs.zip xs.tail).filterMap fun p =>
    if p.1.2 = 0 ∧ p.2.2 = 1 then some p.2.1 else none

/-- Cycle-end search for one start:
`after_start = valve_df[valve_df['_time'] > start_time]`, then
`end_times = after_start[after_start['_value'] == 0]`, then
`end_times.iloc[0]` when nonempty. -/
def findCycleEnd (xs : List Sample) (start : ℚ) : Option ℚ :=
  (((xs.filter fun s => start < s.1).filter fun s => s.2 = 0).head?).map (·.1)

/-- The complete cycles of the valve series: each detected 0→1 start paired
with the first value-0 sample strictly after it; starts with no such sample
are dropped (`if not end_times.empty`). -/
def completedCycles (xs : List Sample) : List (ℚ × ℚ) :=
  (cycleStarts xs).filterMap fun st => (findCycleEnd xs st).map fun e => (st, e)

/-- `MIN_CYCLE_DURATION_MINUTES` of `analyze_hot_water_cycles`, which
queries with `aggregation_window='1m'`. -/
def minCycleDurationMinutesFine : ℚ := 5

/-- `MIN_CYCLE_DURATION_MINUTES` of `analyze_hot_water_cycles_from_df`,
which consumes the coarser batch-aggregated frame. -/
def minCycleDurationMinutesBatch : ℚ := 10

/-- The aggregation window `analyze_hot_water_cycles` requests for its own
query (`query_metrics(..., aggregation_window='1m')`). -/
def hotWaterFineWindow : String := "1m"

/-- The `cycle_durations` list after the minimum-duration filter: a
completed cycle's duration in minutes is kept when it is not strictly below
the threshold (`if duration_minutes < MIN: continue`). -/
def cycleDurationsMin (m : ℚ) (xs : List Sample) : List ℚ :=
  (completedCycles xs).filterMap fun c =>
    if (c.2 - c.1) / 60 < m then none else some ((c.2 - c.1) / 60)

/-- The cycles counted by `filtered_count`: completed cycles whose duration
in minutes is strictly below the threshold. -/
def rejectedCyclesMin (m : ℚ) (xs : List Sample) : List (ℚ × ℚ) :=
  (completedCycles xs).filter fun c => (c.2 - c.1) / 60 < m

/-! ## COP estimation (`calculate_cop_from_df`) -/

/-- One row of the pivoted frame built by `calculate_cop_from_df`
(`pivot_table(index='_time', columns='name', values='_value')`): a
timestamp and one optional column per COP input metric.  A missing value
(NaN after the pivot, or a wholly absent column) is `none`. -/
structure CopRow where
  time : ℚ
  radiator_forward : Option ℚ
  radiator_return : Option ℚ
  brine_in_evaporator : Option ℚ
  brine_out_condenser : Option ℚ
  power_consumption : Option ℚ
  compressor_status : Option ℚ
deriving DecidableEq

/-- `radiator_delta = radiator_forward - radiator_return`; NaN (absent)
when either operand is absent. -/
def radiatorDelta (r : CopRow) : Option ℚ :=
  match r.radiator_forward, r.radiator_return with
  | some f, some b => some (f - b)
  | _, _ => none

/-- `brine_delta = brine_in_evaporator - brine_out_condenser`; NaN (absent)
when either operand is absent. -/
def brineDelta (r : CopRow) : Option ℚ :=
  match r.brine_in_evaporator, r.brine_out_condenser with
  | some bi, some bo => some (bi - bo)
  | _, _ => none

/-- The per-row `estimated_cop`: the mask
`(compressor_status > 0) & (brine_delta > 0.5) & (radiator_delta > 0.5)`
selects the rows that receive `2.0 + radiator_delta / brine_delta`, and the
subsequent `clip(1.5, 6.0)` clamps assigned values while leaving unassigned
rows NaN (absent).  A NaN operand makes each comparison false, so a row
with any input absent is outside the mask. -/
def estimatedCop (r : CopRow) : Option ℚ :=
  match r.compressor_status, radiatorDelta r, brineDelta r with
  | some c, some rd, some bd =>
    if 0 < c ∧ 1/2 < bd ∧ 1/2 < rd then
      some (min (max (2 + rd / bd) (3/2)) 6)
    else none
  | _, _, _ => none

/-- `calculate_cop_from_df` restricted to its per-timestamp output: each
aligned row yields its timestamp and optional COP estimate. -/
def calculateCopFromDf (rows : List CopRow) : List (ℚ × Option ℚ) :=
  rows.map fun r => (r.time, estimatedCop r)

/-! ## Runtime statistics (`calculate_runtime_stats`) -/

/-- The per-sample accrual loop of `calculate_runtime_stats`
(`for i in range(len(df) - 1)`): each sample with value > 0 contributes the
real elapsed seconds to the next sample. -/
def runtimeCore : List Sample → ℚ
  | [] => 0
  | [_] => 0
  | a :: b :: rest => (if 0 < a.2 then b.1 - a.1 else 0) + runtimeCore (b :: rest)

/-- The final two samples of a series, when it has at least two
(`df.iloc[-2]`, `df.iloc[-1]`). -/
def lastTwo : List Sample → Option (Sample × Sample)
  | [] => none
  | [_] => none
  | [a, b] => some (a, b)
  | _ :: b :: c :: rest => lastTwo (b :: c :: rest)

/-- Total active seconds of a state series: the pairwise accrual plus the
final-sample extrapolation (`if len > 1 and last value > 0`, add the
immediately preceding inter-sample interval). -/
def runtimeSeconds (xs : List Sample) : ℚ :=
  runtimeCore xs +
    match lastTwo xs with
    | some (a, b) => if 0 < b.2 then b.1 - a.1 else 0
    | none => 0

/-- Result record of `calculate_runtime_stats`. -/
structure RuntimeStats where
  compressor_runtime_hours : ℚ
  compressor_runtime_percent : ℚ
  aux_heater_runtime_hours : ℚ
  aux_heater_runtime_percent : ℚ
  total_hours : ℚ
deriving DecidableEq

/-- The all-zero `RuntimeStats` returned for empty data or a zero-length
window. -/
def zeroRuntimeStats : RuntimeStats := ⟨0, 0, 0, 0, 0⟩

/-- `(df['_time'].max() - df['_time'].min()).total_seconds() / 3600`
computed over the combined frame. -/
def totalWindowHours (xs : List Sample) : ℚ :=
  (listMax (xs.map (·.1)) - listMin (xs.map (·.1))) / 3600

/-- `(runtime_hours / total_hours * 100) if total_hours > 0 else 0`. -/
def runtimePercent (seriesHours totalHours : ℚ) : ℚ :=
  if 0 < totalHours then seriesHours / totalHours * 100 else 0

/-- `calculate_runtime_stats`: the combined frame holds the
`compressor_status` and `additional_heat_percent` series; an empty frame or
zero-length window yields the zero record, otherwise each series is sorted
by time, its active seconds accrued over real inter-sample intervals, and
all fields rounded to one decimal. -/
def calculateRuntimeStats (comp aux : List Sample) : RuntimeStats :=
  if comp ++ aux = [] then zeroRuntimeStats
  else if totalWindowHours (comp ++ aux) = 0 then zeroRuntimeStats
  else
    ⟨pyRound (runtimeSeconds (sortSamplesAsc comp) / 3600) 1,
     pyRound (runtimePercent (runtimeSeconds (sortSamplesAsc comp) / 3600)
       (totalWindowHours (comp ++ aux))) 1,
     pyRound (runtimeSeconds (sortSamplesAsc aux) / 3600) 1,
     pyRound (runtimePercent (runtimeSeconds (sortSamplesAsc aux) / 3600)
       (totalWindowHours (comp ++ aux))) 1,
     pyRound (totalWindowHours (comp ++ aux)) 1⟩

/-- An all-active series of evenly spaced samples: `n` samples, spacing `d`
seconds, every value 1 (device on). -/
def mkUniform (t0 d : ℚ) : ℕ → List Sample
  | 0 => []
  | n + 1 => (t0, 1) :: mkUniform (t0 + d) d n

/-! ## Event log (`get_event_log`) -/

/-- One event record as assembled by the detection loops of
`get_event_log` (`{'time': ..., 'event': ..., 'type': ..., 'icon': ...}`). -/
structure EventRec where
  time : ℚ
  event : String
  etype : String
  icon : String
deriving DecidableEq

/-- The descending-time order used by
`sorted(events, key=lambda x: x['time'], reverse=True)`. -/
def eventLe (a b : EventRec) : Prop := b.time ≤ a.time

instance : DecidableRel eventLe := fun a b =>
  inferInstanceAs (Decidable (b.time ≤ a.time))

instance : IsTotal EventRec eventLe := ⟨fun a b => le_total b.time a.time⟩

instance : IsTrans EventRec eventLe :=
  ⟨fun _ _ _ hab hbc => le_trans hbc hab⟩

/-- Python's `sorted(..., reverse=True)` is a stable descending sort;
insertion sort with the descending relation has the same semantics. -/
def sortEventsDesc (events : List EventRec) : List EventRec :=
  List.insertionSort eventLe events

/-- The merge/sort/truncate stage of `get_event_log`: the events detected
across all signals (already merged into one list by the per-metric loops)
are sorted descending by time and truncated to the requested limit
(`events[:limit]`). -/
def getEventLog (events : List EventRec) (limit : ℕ) : List EventRec :=
  (sortEventsDesc events).take limit

/-! ## Helper lemmas for the energy integrator -/

lemma energyGo_eq_zipSum (rest : List Sample) (prev : Sample) :
    energyGo prev rest =
      (((prev :: rest).zip rest).map fun p =>
        p.2.2 * ((p.2.1 - p.1.1) / 3600) / 1000).sum := by
  induction rest generalizing prev with
  | nil => simp [energyGo]
  | cons cur rest ih => simp [energyGo, ih cur, List.zip_cons_cons]

lemma energyGo_const (rest : List Sample) (prev : Sample) (P : ℚ)
    (h : ∀ s ∈ rest, s.2 = P) :
    energyGo prev rest = P * ((rest.getLastD prev).1 - prev.1) / 3600 / 1000 := by
  induction rest generalizing prev with
  | nil => simp [energyGo]
  | cons cur rest ih =>
    have hcur : cur.2 = P := h cur (List.mem_cons_self _ _)
    have hrest : ∀ s ∈ rest, s.2 = P := fun s hs => h s (List.mem_cons_of_mem _ hs)
    rw [energyGo, ih cur hrest, List.getLastD_cons, hcur]
    ring

/-! ## Claim theorems: aggregation windows and scaling -/

/-- **C6.** The batch aggregation selector maps hour ranges to
1m/3m/5m/15m at the breakpoints 1, 6, 24 and day ranges to 5m/30m/2h/6h at
the breakpoints 1, 7, 30; the COP selector maps hour ranges to 1m/2m/5m/10m
and day ranges to 5m/10m/10m/1h at the same breakpoints. -/
theorem aggregation_window_policy (h d : ℕ) :
    getAggregationWindow (.hours h) =
      (if h ≤ 1 then "1m" else if h ≤ 6 then "3m" else if h ≤ 24 then "5m" else "15m") ∧
    getAggregationWindow (.days d) =
      (if d ≤ 1 then "5m" else if d ≤ 7 then "30m" else if d ≤ 30 then "2h" else "6h") ∧
    getCopAggregationWindow (.hours h) =
      (if h ≤ 1 then "1m" else if h ≤ 6 then "2m" else if h ≤ 24 then "5m" else "10m") ∧
    getCopAggregationWindow (.days d) =
      (if d ≤ 1 then "5m" else if d ≤ 7 then "10m" else if d ≤ 30 then "10m" else "1h") := by
  exact ⟨rfl, rfl, rfl, rfl⟩

/-- **C7 (counterexample).** A range whose unit is neither hours nor days is
not rejected: the selector falls through to its default branch and returns
the window `"5m"`. -/
theorem aggregation_window_other_counterexample :
    getAggregationWindow .other = "5m" := rfl

/-- **C7 (amended).** For a range whose unit is neither hours nor days, both
selectors return the default window `"5m"`; no error is raised (no
`InvalidRangeFormat` path exists in the code). -/
theorem aggregation_window_other_default :
    getAggregationWindow .other = "5m" ∧ getCopAggregationWindow .other = "5m" :=
  ⟨rfl, rfl⟩

/-- **C10.** Both value-scaling passes divide a metric's raw value by 10
exactly when the metric is outside the fixed no-division set
{compressor_status, brine_pump_status, radiator_pump_status,
switch_valve_status, alarm_status, alarm_code, operating_mode,
external_control, power_consumption}, and leave it unscaled inside the set;
`get_latest_values` applies the identical rule as `query_metrics`. -/
theorem raw_value_scaling (rows : List (String × ℚ)) :
    queryMetricsScale rows =
      rows.map (fun r =>
        if r.1 ∈ ["compressor_status", "brine_pump_status", "radiator_pump_status",
                  "switch_valve_status", "alarm_status", "alarm_code",
                  "operating_mode", "external_control", "power_consumption"]
        then r else (r.1, r.2 / 10)) ∧
    getLatestValuesScale rows = queryMetricsScale rows := by
  exact ⟨rfl, rfl⟩

/-! ## Claim theorems: energy integration -/

/-- **C1 (counterexample).** On the two-sample series `(t=0, 1000 W)`,
`(t=3600 s, 3000 W)` the code reports 3 kWh — each sample is weighted by
the interval *ending* at it (`diff()` is a backward difference) — while the
claim's formula, `Σ power[i] * Δt[i]` with `Δt[i]` the elapsed time between
sample `i` and sample `i+1` (a left-Riemann sum), gives 1 kWh. -/
theorem energy_integration_counterexample :
    (calculateEnergyCosts (.ok [((0 : ℚ), 1000), (3600, 3000)]) 2).total_kwh = 3 ∧
    energyKwhLeftRiemann [((0 : ℚ), 1000), (3600, 3000)] = 1 := by
  constructor
  · norm_num [calculateEnergyCosts, sortSamplesAsc, insertSampleAsc,
      energyKwhTotal, energyGo, pyRound, roundHalfEven, listMax, List.cons_ne_nil]
  · norm_num [energyKwhLeftRiemann]

/-- **C1 (amended).** The integrator computes
`Σ power[i] * Δt[i] / 1000` where `Δt[i]` is the elapsed time in hours
between sample `i-1` and sample `i` (a right-Riemann sum: the first sample
contributes zero duration, having no predecessor); consequently a series of
constant value `P` watts spanning `T` hours — uniformly sampled or not —
integrates to exactly `P*T/1000` kWh in the exact-arithmetic model. -/
theorem energy_integration :
    (∀ xs : List Sample,
      energyKwhTotal xs =
        ((xs.zip xs.tail).map fun p => p.2.2 * ((p.2.1 - p.1.1) / 3600) / 1000).sum) ∧
    (∀ (x : Sample) (rest : List Sample) (P : ℚ),
      (∀ s ∈ x :: rest, s.2 = P) →
      energyKwhTotal (x :: rest) = P * ((rest.getLastD x).1 - x.1) / 3600 / 1000) := by
  constructor
  · intro xs
    cases xs with
    | nil => simp [energyKwhTotal]
    | cons x rest => simpa [energyKwhTotal] using energyGo_eq_zipSum rest x
  · intro x rest P h
    exact energyGo_const rest x P fun s hs => h s (List.mem_cons_of_mem _ hs)

/-- **C1 (witness).** Three samples of constant 2000 W spanning one hour
(non-uniform spacing) integrate to exactly 2 kWh. -/
theorem energy_integration_witness :
    energyKwhTotal [((0 : ℚ), 2000), (1800, 2000), (3600, 2000)] = 2 := by
  have h := energy_integration.2 ((0 : ℚ), 2000) [(1800, 2000), (3600, 2000)] 2000
    (by decide)
  norm_num [List.getLastD] at h
  exact h

/-! ## Claim theorems: empty data vs. upstream failure -/

/-- **C8 (counterexample).** An upstream query failure and a successful
query with no samples produce *identical* outcomes: `query_metrics` catches
the exception and returns an empty frame (and `calculate_energy_costs`'s
own `except` path returns the same zero record), so the caller cannot
distinguish the two — refuting the claimed distinguishability. -/
theorem empty_vs_failure_counterexample :
    calculateEnergyCosts (.error ()) 2 = calculateEnergyCosts (.ok []) 2 := rfl

/-- **C8 (amended).** A query that succeeds with no samples yields the
documented all-zero result and never an error; an upstream query failure is
caught and yields the *same* all-zero result, so the two conditions are not
distinguishable in the operation's outcome (only in the log channel). -/
theorem empty_vs_failure :
    (∀ price : ℚ, calculateEnergyCosts (.ok []) price = zeroEnergyCostResult) ∧
    (∀ (e : Unit) (price : ℚ),
      calculateEnergyCosts (.error e) price = zeroEnergyCostResult) :=
  ⟨fun _ => rfl, fun _ _ => rfl⟩

/-! ## Helper lemmas for the duration filter -/

lemma cycleDurations_eq_map_filter (m : ℚ) (l : List (ℚ × ℚ)) :
    (l.filterMap fun c =>
        if (c.2 - c.1) / 60 < m then none else some ((c.2 - c.1) / 60)) =
      (l.filter fun c => m ≤ (c.2 - c.1) / 60).map fun c => (c.2 - c.1) / 60 := by
  induction l with
  | nil => rfl
  | cons c l ih =>
    by_cases h : (c.2 - c.1) / 60 < m
    · have h' : ¬ m ≤ (c.2 - c.1) / 60 := not_le.mpr h
      simp [h, h', ih]
    · have h' : m ≤ (c.2 - c.1) / 60 := not_lt.mp h
      simp [h, h', ih]

lemma length_filter_lt_add_le (m : ℚ) (l : List (ℚ × ℚ)) :
    (l.filter fun c => (c.2 - c.1) / 60 < m).length
      + (l.filter fun c => m ≤ (c.2 - c.1) / 60).length = l.length := by
  induction l with
  | nil => rfl
  | cons c l ih =>
    by_cases h : (c.2 - c.1) / 60 < m
    · have h' : ¬ m ≤ (c.2 - c.1) / 60 := not_le.mpr h
      simp [h, h']
      omega
    · have h' : m ≤ (c.2 - c.1) / 60 := not_lt.mp h
      simp [h, h']
      omega

/-! ## Claim theorems: hot-water cycle detection -/

/-- **C2.** For a strictly time-ordered valve series `[0,1,1,0,0,1,0]` at
times `t0..t6`, exactly the two complete cycles `(t1,t3)` and `(t5,t6)` are
detected — each 0→1 transition opens a cycle, closed by the first value-0
sample strictly after it; appending a trailing unterminated `1` at `t7`
leaves the result unchanged (the new start has no closing 0 and is
discarded), and in general a start whose end search fails never appears in
the completed cycles. -/
theorem cycle_pairing (t0 t1 t2 t3 t4 t5 t6 t7 : ℚ)
    (h01 : t0 < t1) (h12 : t1 < t2) (h23 : t2 < t3) (h34 : t3 < t4)
    (h45 : t4 < t5) (h56 : t5 < t6) (h67 : t6 < t7) :
    completedCycles [(t0,0),(t1,1),(t2,1),(t3,0),(t4,0),(t5,1),(t6,0)]
        = [(t1,t3),(t5,t6)] ∧
    completedCycles [(t0,0),(t1,1),(t2,1),(t3,0),(t4,0),(t5,1),(t6,0),(t7,1)]
        = [(t1,t3),(t5,t6)] ∧
    (∀ (xs : List Sample) (st e : ℚ), findCycleEnd xs st = none →
        (st, e) ∉ completedCycles xs) := by
  have n10 : ¬ (t1 < t0) := asymm h01
  have n11 : ¬ (t1 < t1) := lt_irrefl t1
  have p13 : t1 < t3 := h12.trans h23
  have p14 : t1 < t4 := p13.trans h34
  have p15 : t1 < t5 := p14.trans h45
  have p16 : t1 < t6 := p15.trans h56
  have p17 : t1 < t7 := p16.trans h67
  have p56 : t5 < t6 := h56
  have p57 : t5 < t7 := h56.trans h67
  have n50 : ¬ (t5 < t0) := asymm (h01.trans p15)
  have n51 : ¬ (t5 < t1) := asymm p15
  have n52 : ¬ (t5 < t2) := asymm ((h23.trans h34).trans h45)
  have n53 : ¬ (t5 < t3) := asymm (h34.trans h45)
  have n54 : ¬ (t5 < t4) := asymm h45
  have n55 : ¬ (t5 < t5) := lt_irrefl t5
  have n70 : ¬ (t7 < t0) := asymm ((h01.trans p15).trans p57)
  have n71 : ¬ (t7 < t1) := asymm p17
  have n72 : ¬ (t7 < t2) := asymm (((h23.trans h34).trans h45).trans p57)
  have n73 : ¬ (t7 < t3) := asymm ((h34.trans h45).trans p57)
  have n74 : ¬ (t7 < t4) := asymm (h45.trans p57)
  have n75 : ¬ (t7 < t5) := asymm p57
  have n76 : ¬ (t7 < t6) := asymm h67
  have n77 : ¬ (t7 < t7) := lt_irrefl t7
  refine ⟨?_, ?_, ?_⟩
  · have hstarts :
        cycleStarts [(t0,0),(t1,1),(t2,1),(t3,0),(t4,0),(t5,1),(t6,0)] = [t1, t5] := by
      simp [cycleStarts]
    have hend1 :
        findCycleEnd [(t0,0),(t1,1),(t2,1),(t3,0),(t4,0),(t5,1),(t6,0)] t1 = some t3 := by
      simp [findCycleEnd, List.filter_cons, n10, n11, h12, p13, p14, p15, p16]
    have hend5 :
        findCycleEnd [(t0,0),(t1,1),(t2,1),(t3,0),(t4,0),(t5,1),(t6,0)] t5 = some t6 := by
      simp [findCycleEnd, List.filter_cons, n50, n51, n52, n53, n54, n55, p56]
    simp [completedCycles, hstarts, hend1, hend5]
  · have hstarts :
        cycleStarts [(t0,0),(t1,1),(t2,1),(t3,0),(t4,0),(t5,1),(t6,0),(t7,1)]
          = [t1, t5, t7] := by
      simp [cycleStarts]
    have hend1 :
        findCycleEnd [(t0,0),(t1,1),(t2,1),(t3,0),(t4,0),(t5,1),(t6,0),(t7,1)] t1
          = some t3 := by
      simp [findCycleEnd, List.filter_cons, n10, n11, h12, p13, p14, p15, p16, p17]
    have hend5 :
        findCycleEnd [(t0,0),(t1,1),(t2,1),(t3,0),(t4,0),(t5,1),(t6,0),(t7,1)] t5
          = some t6 := by
      simp [findCycleEnd, List.filter_cons, n50, n51, n52, n53, n54, n55, p56, p57]
    have hend7 :
        findCycleEnd [(t0,0),(t1,1),(t2,1),(t3,0),(t4,0),(t5,1),(t6,0),(t7,1)] t7
          = none := by
      simp [findCycleEnd, List.filter_cons, n70, n71, n72, n73, n74, n75, n76, n77]
    simp [completedCycles, hstarts, hend1, hend5, hend7]
  · intro xs st e hnone hmem
    rcases List.mem_filterMap.mp hmem with ⟨st', _, heq⟩
    rcases Option.map_eq_some'.mp heq with ⟨e', hfind, hpair⟩
    have hst : st' = st := (Prod.mk.injEq _ _ _ _ ▸ hpair).1
    rw [hst, hnone] at hfind
    exact Option.noConfusion hfind

/-- **C2 (witness).** The concrete instance at times `0..7`. -/
theorem cycle_pairing_witness :
    completedCycles
        [((0:ℚ),0),(1,1),(2,1),(3,0),(4,0),(5,1),(6,0)] = [((1:ℚ),(3:ℚ)),(5,6)] ∧
    completedCycles
        [((0:ℚ),0),(1,1),(2,1),(3,0),(4,0),(5,1),(6,0),(7,1)] = [((1:ℚ),(3:ℚ)),(5,6)] := by
  have h := cycle_pairing 0 1 2 3 4 5 6 7 (by norm_num) (by norm_num) (by norm_num)
    (by norm_num) (by norm_num) (by norm_num) (by norm_num)
  exact ⟨h.1, h.2.1⟩

/-- **C3.** The minimum-duration filter keeps a completed cycle whose
duration is exactly the threshold (`duration < MIN` skips, so equality is
retained) and rejects one strictly below it; rejected plus retained counts
equal the number of completed cycles (starts with a closing 0 found); the
threshold is 5 minutes in `analyze_hot_water_cycles` (1-minute aggregation)
and 10 minutes in `analyze_hot_water_cycles_from_df` (batch aggregation). -/
theorem duration_filter (m : ℚ) (xs : List Sample) :
    minCycleDurationMinutesFine = 5 ∧
    minCycleDurationMinutesBatch = 10 ∧
    hotWaterFineWindow = "1m" ∧
    (rejectedCyclesMin m xs).length + (cycleDurationsMin m xs).length
        = (completedCycles xs).length ∧
    (∀ c ∈ completedCycles xs, (c.2 - c.1) / 60 = m →
        (c.2 - c.1) / 60 ∈ cycleDurationsMin m xs) ∧
    (∀ c ∈ completedCycles xs, (c.2 - c.1) / 60 < m →
        c ∈ rejectedCyclesMin m xs) := by
  refine ⟨rfl, rfl, rfl, ?_, ?_, ?_⟩
  · rw [cycleDurationsMin, rejectedCyclesMin, cycleDurations_eq_map_filter,
      List.length_map]
    exact length_filter_lt_add_le m (completedCycles xs)
  · intro c hc hd
    refine List.mem_filterMap.mpr ⟨c, hc, ?_⟩
    rw [if_neg (by rw [hd]; exact lt_irrefl m)]
  · intro c hc hlt
    exact List.mem_filter.mpr ⟨hc, by simpa using hlt⟩

/-- **C3 (witness).** On a valve series with a completed 5-minute cycle and
a completed 1-minute cycle, threshold 5: the exactly-at-threshold cycle is
retained, the shorter one is rejected. -/
theorem duration_filter_witness :
    ((5 : ℚ) ∈ cycleDurationsMin 5 [((10:ℚ),0),(60,1),(360,0),(400,1),(460,0)]) ∧
    (((400 : ℚ), (460 : ℚ)) ∈
      rejectedCyclesMin 5 [((10:ℚ),0),(60,1),(360,0),(400,1),(460,0)]) := by
  have hcc : completedCycles [((10:ℚ),0),(60,1),(360,0),(400,1),(460,0)]
      = [((60:ℚ),(360:ℚ)),(400,460)] := by
    have hstarts : cycleStarts [((10:ℚ),0),(60,1),(360,0),(400,1),(460,0)] = [60, 400] := by
      simp [cycleStarts]
    have he1 : findCycleEnd [((10:ℚ),0),(60,1),(360,0),(400,1),(460,0)] 60 = some 360 := by
      norm_num [findCycleEnd, List.filter_cons]
    have he2 : findCycleEnd [((10:ℚ),0),(60,1),(360,0),(400,1),(460,0)] 400 = some 460 := by
      norm_num [findCycleEnd, List.filter_cons]
    simp [completedCycles, hstarts, he1, he2]
  constructor
  · have h := (duration_filter 5 [((10:ℚ),0),(60,1),(360,0),(400,1),(460,0)]).2.2.2.2.1
      ((60:ℚ),(360:ℚ)) (by rw [hcc]; simp) (by norm_num)
    norm_num at h
    exact h
  · exact (duration_filter 5 [((10:ℚ),0),(60,1),(360,0),(400,1),(460,0)]).2.2.2.2.2
      ((400:ℚ),(460:ℚ)) (by rw [hcc]; simp) (by norm_num)

/-! ## Claim theorems: COP estimation -/

/-- **C4.** A COP estimate is emitted exactly where
`compressor_status > 0`, `brine_delta > 0.5` and `radiator_delta > 0.5`
all hold; where the mask holds the value is `2 + radiator_delta/brine_delta`
clamped to [1.5, 6.0]; rows outside the mask carry no estimate (absent, not
zero) — in particular a zero or absent compressor state yields no estimate
regardless of the deltas — and a raw estimate of 50.0 is emitted as exactly
6.0. -/
theorem cop_mask_and_clamp :
    (∀ (rows : List CopRow) (p : ℚ × Option ℚ),
      p ∈ calculateCopFromDf rows ↔ ∃ r ∈ rows, p = (r.time, estimatedCop r)) ∧
    (∀ r : CopRow, (estimatedCop r).isSome ↔
      (∃ c, r.compressor_status = some c ∧ 0 < c) ∧
      (∃ bd, brineDelta r = some bd ∧ 1/2 < bd) ∧
      (∃ rd, radiatorDelta r = some rd ∧ 1/2 < rd)) ∧
    (∀ (r : CopRow) (c rd bd : ℚ),
      r.compressor_status = some c → 0 < c →
      radiatorDelta r = some rd → 1/2 < rd →
      brineDelta r = some bd → 1/2 < bd →
      estimatedCop r = some (min (max (2 + rd / bd) (3/2)) 6)) ∧
    (∀ r : CopRow, r.compressor_status = some 0 ∨ r.compressor_status = none →
      estimatedCop r = none) ∧
    (estimatedCop ⟨0, some 50, some 2, some 2, some 1, some 1000, some 1⟩
        = some 6 ∧
      (2 : ℚ) + 48 / 1 = 50) := by
  refine ⟨?_, ?_, ?_, ?_, ?_, ?_⟩
  · intro rows p
    simp [calculateCopFromDf, List.mem_map, eq_comm]
  · intro r
    cases hc : r.compressor_status with
    | none => simp [estimatedCop, hc]
    | some c =>
      cases hrd : radiatorDelta r with
      | none => simp [estimatedCop, hc, hrd]
      | some rd =>
        cases hbd : brineDelta r with
        | none => simp [estimatedCop, hc, hrd, hbd]
        | some bd =>
          by_cases hcond : 0 < c ∧ 1/2 < bd ∧ 1/2 < rd
          · simp only [estimatedCop, hc, hrd, hbd, if_pos hcond, Option.isSome_some,
              true_iff]
            exact ⟨⟨c, rfl, hcond.1⟩, ⟨bd, rfl, hcond.2.1⟩, ⟨rd, rfl, hcond.2.2⟩⟩
          · simp only [estimatedCop, hc, hrd, hbd, if_neg hcond, Option.isSome_none,
              Bool.false_eq_true, false_iff]
            intro hcontra
            rcases hcontra with ⟨⟨c', hc', hc0⟩, ⟨bd', hbd', hbdgt⟩, ⟨rd', hrd', hrdgt⟩⟩
            exact hcond ⟨Option.some.inj hc' ▸ hc0,
              Option.some.inj hbd' ▸ hbdgt, Option.some.inj hrd' ▸ hrdgt⟩
  · intro r c rd bd hc hc0 hrd hrdgt hbd hbdgt
    rw [estimatedCop, hc, hrd, hbd]
    exact if_pos ⟨hc0, hbdgt, hrdgt⟩
  · intro r hr
    rcases hr with hzero | hnone
    · cases hrd : radiatorDelta r with
      | none => simp [estimatedCop, hzero, hrd]
      | some rd =>
        cases hbd : brineDelta r with
        | none => simp [estimatedCop, hzero, hrd, hbd]
        | some bd => simp [estimatedCop, hzero, hrd, hbd]
    · simp [estimatedCop, hnone]
  · norm_num [estimatedCop, radiatorDelta, brineDelta]
  · norm_num

/-- **C4 (witness).** A masked row (compressor on, radiator delta 4, brine
delta 2) receives exactly the clamped estimate `2 + 4/2 = 4`. -/
theorem cop_mask_and_clamp_witness :
    estimatedCop ⟨0, some 6, some 2, some 3, some 1, some 1000, some 1⟩
      = some (min (max (2 + 4 / 2) (3/2)) 6) := by
  exact cop_mask_and_clamp.2.2.1 ⟨0, some 6, some 2, some 3, some 1, some 1000, some 1⟩
    1 4 2 rfl (by norm_num) (by norm_num [radiatorDelta]) (by norm_num)
    (by norm_num [brineDelta]) (by norm_num)

/-! ## Helper lemmas for the runtime estimator -/

lemma mem_insertSampleAsc {s e : Sample} {l : List Sample} :
    s ∈ insertSampleAsc e l ↔ s = e ∨ s ∈ l := by
  induction l with
  | nil => simp [insertSampleAsc]
  | cons x xs ih =>
    rw [insertSampleAsc]
    split
    · simp
    · simp only [List.mem_cons, ih]
      tauto

lemma mem_sortSamplesAsc {s : Sample} {l : List Sample} :
    s ∈ sortSamplesAsc l ↔ s ∈ l := by
  induction l with
  | nil => simp [sortSamplesAsc]
  | cons x xs ih => simp [sortSamplesAsc, mem_insertSampleAsc, ih]

lemma runtimeCore_zero (xs : List Sample) (h : ∀ s ∈ xs, s.2 = 0) :
    runtimeCore xs = 0 := by
  induction xs with
  | nil => rfl
  | cons a rest ih =>
    cases rest with
    | nil => rfl
    | cons b rest' =>
      rw [runtimeCore, ih (fun s hs => h s (List.mem_cons_of_mem _ hs)),
        if_neg (by rw [h a (List.mem_cons_self _ _)]; exact lt_irrefl 0)]
      ring

lemma lastTwo_mem_right (xs : List Sample) : ∀ a b : Sample,
    lastTwo xs = some (a, b) → b ∈ xs := by
  induction xs with
  | nil => intro a b h; simp [lastTwo] at h
  | cons x xs ih =>
    intro a b h
    cases xs with
    | nil => simp [lastTwo] at h
    | cons y ys =>
      cases ys with
      | nil =>
        rw [lastTwo] at h
        obtain ⟨-, hy⟩ := Prod.ext_iff.mp (Option.some.inj h)
        subst hy
        simp
      | cons z zs =>
        rw [lastTwo] at h
        exact List.mem_cons_of_mem _ (ih a b h)

lemma runtimeSeconds_zero (xs : List Sample) (h : ∀ s ∈ xs, s.2 = 0) :
    runtimeSeconds xs = 0 := by
  rw [runtimeSeconds, runtimeCore_zero xs h]
  cases hl : lastTwo xs with
  | none => simp
  | some p =>
    obtain ⟨a, b⟩ := p
    have hb : b.2 = 0 := h b (lastTwo_mem_right xs a b hl)
    simp [hb]

lemma pyRound_zero (d : ℕ) : pyRound 0 d = 0 := by
  norm_num [pyRound, roundHalfEven]

lemma sortSamplesAsc_of_chain (xs : List Sample)
    (h : List.Chain' (fun a b : Sample => a.1 ≤ b.1) xs) : sortSamplesAsc xs = xs := by
  induction xs with
  | nil => rfl
  | cons x rest ih =>
    rw [sortSamplesAsc, ih h.tail]
    cases rest with
    | nil => rfl
    | cons y ys =>
      rw [insertSampleAsc, if_pos (List.chain'_cons.mp h).1]

lemma mkUniform_chain (d : ℚ) (hd : 0 ≤ d) : ∀ (n : ℕ) (t0 : ℚ),
    List.Chain' (fun a b : Sample => a.1 ≤ b.1) (mkUniform t0 d n) := by
  intro n
  induction n with
  | zero => intro t0; simp [mkUniform]
  | succ m ih =>
    intro t0
    cases m with
    | zero => simp [mkUniform]
    | succ k =>
      have hih := ih (t0 + d)
      rw [mkUniform]
      rw [show mkUniform (t0 + d) d (k + 1) = (t0 + d, 1) :: mkUniform (t0 + d + d) d k
        from rfl] at hih ⊢
      exact List.chain'_cons.mpr ⟨le_add_of_nonneg_right hd, hih⟩

lemma runtimeCore_mkUniform (d : ℚ) : ∀ (n : ℕ) (t0 : ℚ),
    runtimeCore (mkUniform t0 d (n + 1)) = (n : ℚ) * d := by
  intro n
  induction n with
  | zero => intro t0; simp [mkUniform, runtimeCore]
  | succ m ih =>
    intro t0
    have hih := ih (t0 + d)
    rw [show mkUniform t0 d (m + 2) = (t0, 1) :: mkUniform (t0 + d) d (m + 1) from rfl]
    rw [show mkUniform (t0 + d) d (m + 1) = (t0 + d, 1) :: mkUniform (t0 + d + d) d m
      from rfl] at hih ⊢
    rw [runtimeCore, hih]
    norm_num
    ring

lemma lastTwo_mkUniform (d : ℚ) : ∀ (n : ℕ) (t0 : ℚ),
    ∃ a : ℚ, lastTwo (mkUniform t0 d (n + 2)) = some ((a, 1), (a + d, 1)) := by
  intro n
  induction n with
  | zero => intro t0; exact ⟨t0, rfl⟩
  | succ m ih =>
    intro t0
    obtain ⟨a, ha⟩ := ih (t0 + d)
    refine ⟨a, ?_⟩
    calc lastTwo (mkUniform t0 d (m + 3))
        = lastTwo (mkUniform (t0 + d) d (m + 2)) := rfl
      _ = some ((a, 1), (a + d, 1)) := ha

lemma mkUniform_time_ge (d : ℚ) (hd : 0 ≤ d) : ∀ (n : ℕ) (t0 : ℚ) (s : Sample),
    s ∈ mkUniform t0 d n → t0 ≤ s.1 := by
  intro n
  induction n with
  | zero => intro t0 s hs; simp [mkUniform] at hs
  | succ m ih =>
    intro t0 s hs
    rw [mkUniform] at hs
    rcases List.mem_cons.mp hs with h | h
    · rw [h]
    · have := ih (t0 + d) s h
      linarith

lemma foldl_max_mkUniform (d : ℚ) (hd : 0 ≤ d) : ∀ (n : ℕ) (t0 init : ℚ),
    init ≤ t0 →
    ((mkUniform t0 d (n + 1)).map (·.1)).foldl max init = t0 + (n : ℚ) * d := by
  intro n
  induction n with
  | zero => intro t0 init h; simp [mkUniform, max_eq_right h]
  | succ m ih =>
    intro t0 init h
    rw [show mkUniform t0 d (m + 2) = (t0, 1) :: mkUniform (t0 + d) d (m + 1) from rfl]
    rw [List.map_cons, List.foldl_cons, max_eq_right h,
      ih (t0 + d) t0 (le_add_of_nonneg_right hd)]
    push_cast
    ring

lemma listMax_mkUniform (d : ℚ) (hd : 0 ≤ d) (n : ℕ) (t0 : ℚ) :
    listMax ((mkUniform t0 d (n + 1)).map (·.1)) = t0 + (n : ℚ) * d := by
  cases n with
  | zero => simp [mkUniform, listMax]
  | succ m =>
    rw [show mkUniform t0 d (m + 2) = (t0, 1) :: mkUniform (t0 + d) d (m + 1) from rfl]
    rw [List.map_cons, listMax,
      foldl_max_mkUniform d hd m (t0 + d) t0 (le_add_of_nonneg_right hd)]
    push_cast
    ring

lemma foldl_min_const : ∀ (l : List ℚ) (init : ℚ),
    (∀ x ∈ l, init ≤ x) → l.foldl min init = init := by
  intro l
  induction l with
  | nil => intro init _; rfl
  | cons x l ih =>
    intro init h
    rw [List.foldl_cons, min_eq_left (h x (List.mem_cons_self _ _))]
    exact ih init fun y hy => h y (List.mem_cons_of_mem _ hy)

lemma listMin_mkUniform (d : ℚ) (hd : 0 ≤ d) (n : ℕ) (t0 : ℚ) :
    listMin ((mkUniform t0 d (n + 1)).map (·.1)) = t0 := by
  rw [show mkUniform t0 d (n + 1) = (t0, 1) :: mkUniform (t0 + d) d n from rfl]
  rw [List.map_cons, listMin]
  apply foldl_min_const
  intro x hx
  rcases List.mem_map.mp hx with ⟨s, hs, rfl⟩
  exact le_trans (le_add_of_nonneg_right hd) (mkUniform_time_ge d hd n (t0 + d) s hs)

/-! ## Claim theorems: runtime estimator -/

/-- **C5 (counterexample).** An all-positive series of N = 2 evenly spaced
samples spanning one hour yields `active_percent = 200`, not ≈ 100: the
final-sample extrapolation adds one whole extra interval, so the claim's
"≈ 100" fails for small N. -/
theorem runtime_estimator_counterexample :
    (calculateRuntimeStats [((0 : ℚ), 1), (3600, 1)] []).compressor_runtime_percent
      = 200 := by
  norm_num [calculateRuntimeStats, totalWindowHours, listMax, listMin, runtimePercent,
    sortSamplesAsc, insertSampleAsc, runtimeSeconds, runtimeCore, lastTwo, pyRound,
    roundHalfEven, List.cons_ne_nil]

/-- **C5 (amended).** The estimator accrues, for each sample with value > 0,
the real elapsed seconds to the next sample, and extrapolates a final
active sample by the preceding interval; hence an all-zero state series
yields `active_percent = 0`; an all-positive series of N ≥ 2 evenly spaced
samples yields `active_percent = 100·N/(N−1)` — approaching 100 from above
for large N, not ≈ 100 for all N; an empty series, or a zero-length window
(e.g. a single sample), yields all-zero fields rather than dividing by
zero. -/
theorem runtime_estimator :
    (∀ comp aux : List Sample, (∀ s ∈ comp, s.2 = 0) →
      (calculateRuntimeStats comp aux).compressor_runtime_percent = 0) ∧
    (∀ (t0 d : ℚ) (n : ℕ), 2 ≤ n → 0 < d →
      (calculateRuntimeStats (mkUniform t0 d n) []).compressor_runtime_percent
        = pyRound (100 * (n : ℚ) / ((n : ℚ) - 1)) 1) ∧
    calculateRuntimeStats [] [] = zeroRuntimeStats ∧
    (∀ t v : ℚ, calculateRuntimeStats [(t, v)] [] = zeroRuntimeStats) := by
  refine ⟨?_, ?_, ?_, ?_⟩
  · intro comp aux h
    rw [calculateRuntimeStats]
    split_ifs with h1 h2
    · rfl
    · rfl
    · show pyRound (runtimePercent (runtimeSeconds (sortSamplesAsc comp) / 3600)
        (totalWindowHours (comp ++ aux))) 1 = 0
      rw [runtimeSeconds_zero _ fun s hs => h s (mem_sortSamplesAsc.mp hs)]
      rw [runtimePercent]
      split_ifs
      · simpa using pyRound_zero 1
      · exact pyRound_zero 1
  · intro t0 d n hn hd
    obtain ⟨m, rfl⟩ : ∃ m, n = m + 2 := ⟨n - 2, by omega⟩
    have happ : mkUniform t0 d (m + 2) ++ ([] : List Sample) = mkUniform t0 d (m + 2) :=
      List.append_nil _
    have hne : mkUniform t0 d (m + 2) ++ ([] : List Sample) ≠ [] := by
      rw [happ, show mkUniform t0 d (m + 2) = (t0, 1) :: mkUniform (t0 + d) d (m + 1)
        from rfl]
      simp
    have htw : totalWindowHours (mkUniform t0 d (m + 2) ++ []) = ((m : ℚ) + 1) * d / 3600 := by
      rw [happ, totalWindowHours, listMax_mkUniform d hd.le (m + 1) t0,
        listMin_mkUniform d hd.le (m + 1) t0]
      push_cast
      ring
    have htwpos : (0 : ℚ) < ((m : ℚ) + 1) * d / 3600 := by positivity
    rw [calculateRuntimeStats]
    split_ifs with h1 h2
    · exact absurd h1 hne
    · rw [htw] at h2
      exact absurd h2 (ne_of_gt htwpos)
    · show pyRound (runtimePercent
        (runtimeSeconds (sortSamplesAsc (mkUniform t0 d (m + 2))) / 3600)
        (totalWindowHours (mkUniform t0 d (m + 2) ++ []))) 1 = _
      rw [sortSamplesAsc_of_chain _ (mkUniform_chain d hd.le (m + 2) t0)]
      have hrs : runtimeSeconds (mkUniform t0 d (m + 2)) = ((m : ℚ) + 2) * d := by
        obtain ⟨a, ha⟩ := lastTwo_mkUniform d m t0
        rw [runtimeSeconds, runtimeCore_mkUniform d (m + 1) t0, ha]
        push_cast
        norm_num
        ring
      rw [hrs, htw, runtimePercent, if_pos htwpos]
      have hd' : d ≠ 0 := ne_of_gt hd
      have hm1 : ((m : ℚ) + 1) ≠ 0 := by positivity
      have harg : ((m : ℚ) + 2) * d / 3600 / (((m : ℚ) + 1) * d / 3600) * 100
          = 100 * ((m : ℚ) + 2) / ((m : ℚ) + 1) := by
        field_simp
        ring
      rw [harg]
      congr 1
      push_cast
      ring
  · rfl
  · intro t v
    rw [calculateRuntimeStats]
    split_ifs with h1 h2
    · rfl
    · rfl
    · exfalso
      apply h2
      rw [totalWindowHours]
      simp [listMax, listMin]

/-- **C5 (witness).** An all-zero two-sample series yields percent 0, and
three evenly spaced all-positive samples yield percent
`pyRound (100·3/2) 1 = 150`. -/
theorem runtime_estimator_witness :
    (calculateRuntimeStats [((5 : ℚ), 0), (3605, 0)] []).compressor_runtime_percent = 0 ∧
    (calculateRuntimeStats (mkUniform 0 3600 3) []).compressor_runtime_percent
      = pyRound 150 1 := by
  constructor
  · exact runtime_estimator.1 [((5 : ℚ), 0), (3605, 0)] [] (by decide)
  · have h := runtime_estimator.2.1 0 3600 3 (by norm_num) (by norm_num)
    norm_num at h
    exact h

/-! ## Claim theorems: event log ordering and limiting -/

/-- **C9 (counterexample).** Two events detected on different signals can
share a timestamp; the sorted output then contains equal consecutive
timestamps, so the ordering is not *strictly* descending. -/
theorem event_ordering_counterexample :
    ¬ List.Chain' (fun a b : EventRec => b.time < a.time)
      (getEventLog [⟨5, "a", "info", "x"⟩, ⟨5, "b", "info", "y"⟩] 10) := by
  norm_num [getEventLog, sortEventsDesc, List.insertionSort, List.orderedInsert,
    eventLe, List.chain'_cons, List.chain'_singleton]

/-- **C9 (amended).** The event log generator merges the events detected
across all signals, sorts them descending by timestamp — non-strictly: ties
between signals are possible and preserved in stable order — and truncates
to the caller's limit, returning min(limit, #events) entries; with 15
events at distinct times and limit 10 it returns exactly the 10 most
recent in strictly descending time order. -/
theorem event_ordering_and_limit :
    (∀ (events : List EventRec) (limit : ℕ),
      List.Sorted eventLe (getEventLog events limit)) ∧
    (∀ (events : List EventRec) (limit : ℕ),
      (getEventLog events limit).length = min limit events.length) ∧
    (getEventLog
        [⟨3, "e", "info", "i"⟩, ⟨11, "e", "info", "i"⟩, ⟨7, "e", "info", "i"⟩,
         ⟨1, "e", "info", "i"⟩, ⟨15, "e", "info", "i"⟩, ⟨9, "e", "info", "i"⟩,
         ⟨5, "e", "info", "i"⟩, ⟨13, "e", "info", "i"⟩, ⟨2, "e", "info", "i"⟩,
         ⟨8, "e", "info", "i"⟩, ⟨14, "e", "info", "i"⟩, ⟨4, "e", "info", "i"⟩,
         ⟨10, "e", "info", "i"⟩, ⟨6, "e", "info", "i"⟩, ⟨12, "e", "info", "i"⟩] 10).map
        (·.time) = [15, 14, 13, 12, 11, 10, 9, 8, 7, 6] := by
  refine ⟨?_, ?_, ?_⟩
  · intro events limit
    exact (List.sorted_insertionSort eventLe events).sublist
      (List.take_sublist limit (sortEventsDesc events))
  · intro events limit
    rw [getEventLog, List.length_take, sortEventsDesc,
      List.length_insertionSort]
  · norm_num [getEventLog, sortEventsDesc, List.insertionSort, List.orderedInsert,
      eventLe]
